import Mathlib

/-!
Shallow embedding of the openworkers runtime core (src/core/runtime.rs and
src/base/mod.rs): the bridge functions `message_from_worker` (postMessage)
and `register_message_handler` (onMessage), the dispatch entry point
`send_message`, the evaluation API `eval`, and context creation
`JsContext.create`.  Engine-native JavaScript values are modelled by an
explicit inductive type; the embedded V8 engine's compile/run pipeline and
the chrono timestamp conversion are abstracted as function parameters.
-/

/-- Model of an engine-native JavaScript value as seen by the bridge
functions: the discriminations the Rust code performs (`is_function`,
`to_object`, array downcast, property access) are decidable on this type. -/
inductive JSValue where
  | undefined
  | nullv
  | boolean (b : Bool)
  | num (n : Int)
  | str (s : String)
  | arr (elems : List JSValue)
  | obj (fields : List (String × JSValue))
  | fn (id : Nat)

/-- Modelled from the spec: `utils::get(scope, object, key)` reads a property
of an object; a missing property yields the engine's `undefined` value. -/
def utilsGet (v : JSValue) (key : String) : JSValue :=
  match v with
  | .obj fields => (fields.lookup key).getD .undefined
  | _ => .undefined

mutual

/-- Modelled from the spec: `to_rust_string_lossy` converts an engine value
to host text using the engine's ToString semantics. -/
def toRustStringLossy : JSValue → String
  | .undefined => "undefined"
  | .nullv => "null"
  | .boolean true => "true"
  | .boolean false => "false"
  | .num n => toString n
  | .str s => s
  | .arr elems => toRustStringLossyList elems
  | .obj _ => "[object Object]"
  | .fn _ => "function"

/-- The comma-joined element list underlying the engine's Array ToString. -/
def toRustStringLossyList : List JSValue → String
  | [] => ""
  | [a] => toRustStringLossy a
  | a :: rest => toRustStringLossy a ++ "," ++ toRustStringLossyList rest

end

/-- Modelled from the spec: `integer_value` converts an engine value to an
integer, yielding none for `undefined` and other non-convertible values. -/
def integerValue : JSValue → Option Int
  | .num n => some n
  | .boolean b => some (if b then 1 else 0)
  | .nullv => some 0
  | _ => none

/-- Modelled from the spec: `to_object` wraps a value as an object; it
yields none exactly on `undefined` and `null` (the source `unwrap`s this). -/
def toObject : JSValue → Option JSValue
  | .undefined => none
  | .nullv => none
  | v => some v

/-- `FunctionCallbackArguments::get(i)`: an out-of-range index yields
`undefined`. -/
def argGet (args : List JSValue) (i : Nat) : JSValue :=
  args.getD i .undefined

/-- The `Local<Value> → Local<Array>` downcast performed by `try_into` in
the console branch: succeeds exactly on arrays (the source `unwrap`s it). -/
def asArray : JSValue → Option (List JSValue)
  | .arr elems => some elems
  | _ => none

/-- `is_function` on an engine value. -/
def isFunction : JSValue → Bool
  | .fn _ => true
  | _ => false

/-- The `Local<Value> → Local<Function>` downcast performed by `try_into`
in `register_message_handler`; succeeds exactly on functions. -/
def tryIntoFunction : JSValue → Option Nat
  | .fn id => some id
  | _ => none

/-- Bitwise NOT on a (small, in-range) i32 value, as the Rust operator `!`
computes it in two's complement: `!n = -n - 1`.  This is the operation the
source applies to `args.length()` in the arity guard of
`message_from_worker`. -/
def notI32 (n : Int) : Int := -n - 1

/-- One host-side output record produced by the postMessage bridge: either a
formatted console line (timestamp millis, level, payload) or a plain stdout
diagnostic. -/
inductive LogRecord where
  | console (dateMillis : Int) (level : String) (payload : String)
  | diagnostic (text : String)
deriving DecidableEq

/-- How one call into the postMessage bridge terminates: normally (with the
records it printed), by throwing a script-visible error, or by a host-side
panic (an `unwrap` of a failed conversion in the Rust source). -/
inductive BridgeOutcome where
  | ok (logs : List LogRecord)
  | scriptError (msg : String) (logs : List LogRecord)
  | hostPanic (logs : List LogRecord)
deriving DecidableEq

/-- The payload accumulated by the console branch of `message_from_worker`:
for each argument, a space followed by its string form, starting from the
empty string. -/
def spaceConcat (elems : List JSValue) : String :=
  elems.foldl (fun acc a => acc ++ " " ++ toRustStringLossy a) ""

/-- Embedding of `message_from_worker` (src/core/runtime.rs, the
`postMessage` bridge).  `fromTimestampMillis` abstracts chrono's
`NaiveDateTime::from_timestamp_millis` (none on out-of-range input, which
the source `unwrap`s); a returned timestamp is represented by its
milliseconds.  The arity guard is embedded exactly as written in the
source: `!args.length() == 1` applies bitwise NOT to the i32 length and
compares the result with 1. -/
def message_from_worker (fromTimestampMillis : Int → Option Int)
    (args : List JSValue) : BridgeOutcome :=
  let len : Int := args.length
  if notI32 len = 1 then
    .scriptError "postMessage expects 1 argument"
      [.diagnostic ("postMessage expects 1 argument, got " ++ toString len)]
  else
    match toObject (argGet args 0) with
    | none => .hostPanic []
    | some message =>
      let kind := toRustStringLossy (utilsGet message "kind")
      if kind = "console" then
        let level := toRustStringLossy (utilsGet message "level")
        let date := (integerValue (utilsGet message "date")).getD 0
        match fromTimestampMillis date with
        | none => .hostPanic []
        | some stamp =>
          match asArray (utilsGet message "args") with
          | none => .hostPanic []
          | some elems =>
            .ok [.console stamp level (spaceConcat elems)]
      else
        .ok [.diagnostic ("Unknown message kind: " ++ kind)]

/-- The mutable slot attached to the execution context
(`JsState { handler: Option<Global<v8::Function>> }`); a persistent
function reference is represented by its identifier. -/
structure JsState where
  handler : Option Nat
deriving DecidableEq

/-- How one call into the onMessage bridge terminates. -/
inductive RegisterOutcome where
  | threwTypeError (msg : String)
  | threwError (msg : String)
  | registered
deriving DecidableEq

/-- Embedding of `register_message_handler` (src/core/runtime.rs, the
`onMessage` bridge): validates that argument 0 is a function, then stores
it in the state slot unless a handler is already present, in which case it
throws and leaves the slot unchanged. -/
def register_message_handler (state : JsState) (args : List JSValue) :
    RegisterOutcome × JsState :=
  let callback := argGet args 0
  if !isFunction callback then
    (.threwTypeError "Arg 0 is not a function", state)
  else
    match tryIntoFunction callback with
    | none => (.threwTypeError "Arg 0 is not a function", state)
    | some f =>
      match state.handler with
      | some _ => (.threwError "Handler already registered", state)
      | none => (.registered, { handler := some f })

/-- Modelled from the spec: the `RuntimeMessage` trait (its module is not
part of the core sources) requires a `prepare(scope)` pre-dispatch side
effect hook and a `to_value(scope)` materialization.  The model counts
`prepare` invocations and carries the value `to_value` materializes. -/
structure EventModel where
  prepareCount : Nat
  value : JSValue

/-- The `prepare` hook of an event: records one invocation. -/
def EventModel.prepare (e : EventModel) : EventModel :=
  { e with prepareCount := e.prepareCount + 1 }

/-- The host-observable steps of one `send_message` call, in order. -/
inductive SendAction where
  | prepared
  | readSlot
  | noHandlerLog
  | calledHandler (id : Nat) (arg : JSValue)

/-- Recognizes the `prepared` step. -/
def isPrepared : SendAction → Bool
  | .prepared => true
  | _ => false

/-- Embedding of `send_message` (src/core/runtime.rs): calls the event's
`prepare` hook, reads the handler slot; if empty, logs a diagnostic and
returns no result; otherwise materializes the event and calls the handler
with it.  `call` abstracts invoking a persistent function reference in the
engine (none models a script exception, which this layer passes through as
the absent result).  Returns the call result, the event after its hooks
ran, and the ordered action trace. -/
def send_message (call : Nat → JSValue → Option JSValue)
    (state : JsState) (event : EventModel) :
    Option JSValue × EventModel × List SendAction :=
  let event1 := event.prepare
  match state.handler with
  | none => (none, event1, [.prepared, .readSlot, .noHandlerLog])
  | some h =>
    let arg := event1.value
    (call h arg, event1, [.prepared, .readSlot, .calledHandler h arg])

/-- The evaluation error taxonomy of the source (`EvalError` in both
src/core/runtime.rs and src/base/mod.rs). -/
inductive EvalError where
  | CompileError
  | RuntimeError
  | ConversionError
deriving DecidableEq

/-- Modelled from the spec: the embedded engine's evaluation pipeline,
abstracted over the engine's internals.  `newString` is
`v8::String::new` (none on failure), `compile` is `v8::Script::compile`
(none on parse/compile failure, including dynamic module-import
expressions, which the evaluation context rejects), `run` executes a
compiled script possibly mutating engine state (none models an uncaught
exception), and `toText` is the completion value's conversion to text
(none on conversion failure).  `σ` is the mutable engine/script state. -/
structure Engine (σ : Type) where
  newString : String → Option String
  compile : String → Option Nat
  run : σ → Nat → Option JSValue × σ
  toText : σ → JSValue → Option String × σ

/-- Embedding of `eval` (src/core/runtime.rs and src/base/mod.rs): each
pipeline stage's failure is mapped by `ok_or` to its error kind; success
returns the completion value's text form. -/
def eval {σ : Type} (eng : Engine σ) (st : σ) (source : String) :
    Except EvalError String × σ :=
  match eng.newString source with
  | none => (.error .CompileError, st)
  | some code =>
    match eng.compile code with
    | none => (.error .CompileError, st)
    | some script =>
      match eng.run st script with
      | (none, st1) => (.error .RuntimeError, st1)
      | (some v, st1) =>
        match eng.toText st1 v with
        | (none, st2) => (.error .ConversionError, st2)
        | (some text, st2) => (.ok text, st2)

/-- The execution context of src/base/mod.rs: the global object modelled as
a keyed list, plus the state slot. -/
structure JsContextModel where
  globals : List (String × JSValue)
  state : JsState

/-- Embedding of `JsContext::create` (src/base/mod.rs): creates a context
from the engine's default globals, deletes the default `console` binding
from the global object, and attaches an empty state slot. -/
def JsContext.create (defaults : List (String × JSValue)) : JsContextModel :=
  { globals := defaults.filter (fun p => p.1 != "console")
  , state := { handler := none } }

/-- The `typeof` string of a value, per the engine's semantics. -/
def typeofString : JSValue → String
  | .undefined => "undefined"
  | .nullv => "object"
  | .boolean _ => "boolean"
  | .num _ => "number"
  | .str _ => "string"
  | .arr _ => "object"
  | .obj _ => "object"
  | .fn _ => "function"

/-- Modelled from the spec: evaluating the probe `typeof name` in a context
yields the `typeof` string of the global binding `name`, which is
`"undefined"` when the binding is absent from the global object. -/
def typeofGlobal (ctx : JsContextModel) (name : String) : String :=
  match ctx.globals.lookup name with
  | none => "undefined"
  | some v => typeofString v

/-- How one `fetch` call of src/base/mod.rs terminates: no handler
registered, a host panic (the source `unwrap`s the handler call result and
its text conversion), or the result text. -/
inductive FetchOutcome where
  | noHandler
  | panicked
  | ok (text : String)
deriving DecidableEq

/-- Embedding of `JsContext::fetch` (src/base/mod.rs): reads the handler
slot; absent handler logs a diagnostic and yields no result; otherwise the
handler is called with `undefined` and the unwrapped result converted to
text.  `call` abstracts the engine call (none models a script exception)
and `toText` the text conversion. -/
def fetch (call : Nat → Option JSValue) (toText : JSValue → Option String)
    (ctx : JsContextModel) : FetchOutcome :=
  match ctx.state.handler with
  | none => .noHandler
  | some h =>
    match call h with
    | none => .panicked
    | some v =>
      match toText v with
      | none => .panicked
      | some text => .ok text

/-- Rendering of a console record into the stable part of the source's
formatted line (the println format string minus the timestamp prefix). -/
def renderConsole : LogRecord → String
  | .console _ level payload => "console." ++ level ++ ":" ++ payload
  | .diagnostic text => text

/-! ## Helper lemmas -/

theorem spaceConcat_shift (l : List JSValue) (acc : String) :
    l.foldl (fun s a => s ++ " " ++ toRustStringLossy a) acc
      = acc ++ spaceConcat l := by
  induction l generalizing acc with
  | nil => simp [spaceConcat]
  | cons a rest ih =>
    simp only [spaceConcat, List.foldl_cons, String.empty_append]
    rw [ih, ih]
    simp [String.append_assoc]

theorem spaceConcat_cons (a : JSValue) (rest : List JSValue) :
    spaceConcat (a :: rest)
      = " " ++ toRustStringLossy a ++ spaceConcat rest := by
  have h := spaceConcat_shift rest (" " ++ toRustStringLossy a)
  simp only [spaceConcat, List.foldl_cons, String.empty_append]
  exact h

theorem eval_cases {σ : Type} (eng : Engine σ) (st : σ) (source : String) :
    ((eval eng st source).1 = Except.error EvalError.CompileError ↔
        eng.newString source = none ∨
        ∃ code, eng.newString source = some code ∧ eng.compile code = none)
    ∧ ((eval eng st source).1 = Except.error EvalError.RuntimeError ↔
        ∃ code script, eng.newString source = some code ∧
          eng.compile code = some script ∧ (eng.run st script).1 = none)
    ∧ ((eval eng st source).1 = Except.error EvalError.ConversionError ↔
        ∃ code script v, eng.newString source = some code ∧
          eng.compile code = some script ∧ (eng.run st script).1 = some v ∧
          (eng.toText (eng.run st script).2 v).1 = none)
    ∧ (∀ text, (eval eng st source).1 = Except.ok text ↔
        ∃ code script v, eng.newString source = some code ∧
          eng.compile code = some script ∧ (eng.run st script).1 = some v ∧
          (eng.toText (eng.run st script).2 v).1 = some text) := by
  rcases h1 : eng.newString source with _ | code
  · simp [eval, h1]
  rcases h2 : eng.compile code with _ | script
  · simp [eval, h1, h2]
  rcases h3 : eng.run st script with ⟨_ | v, st1⟩
  · refine ⟨?_, ?_, ?_, ?_⟩ <;> simp [eval, h1, h2, h3]
  rcases h4 : eng.toText st1 v with ⟨_ | text, st2⟩
  · refine ⟨?_, ?_, ?_, ?_⟩ <;> simp [eval, h1, h2, h3, h4]
  · refine ⟨?_, ?_, ?_, ?_⟩ <;> simp [eval, h1, h2, h3, h4]

theorem lookup_filter_key_none (k : String) (l : List (String × JSValue)) :
    (l.filter (fun p => p.1 != k)).lookup k = none := by
  induction l with
  | nil => rfl
  | cons hd tl ih =>
    rcases hd with ⟨a, v⟩
    by_cases h : a = k
    · subst h
      simpa [List.filter_cons] using ih
    · simp only [List.filter_cons]
      have hne : (a != k) = true := by simp [bne_iff_ne, h]
      simp only [hne, if_pos trivial, List.lookup]
      have hke : (k == a) = false := by simp [beq_eq_false_iff_ne, Ne.symm h]
      simp [hke, ih]

/-! ## Claim theorems -/

/-- C1: a context stores at most one message handler: on a fresh state the
first registration of a function succeeds and stores it; a second
registration attempt throws the script-visible "Handler already registered"
error and leaves the state untouched, so `send_message` still invokes the
first handler. -/
theorem handler_registered_at_most_once (st0 : JsState)
    (h0 : st0.handler = none) (f g : Nat)
    (call : Nat → JSValue → Option JSValue) (e : EventModel) :
    (register_message_handler st0 [JSValue.fn f]).1
        = RegisterOutcome.registered
    ∧ (register_message_handler st0 [JSValue.fn f]).2.handler = some f
    ∧ (register_message_handler (register_message_handler st0
          [JSValue.fn f]).2 [JSValue.fn g]).1
        = RegisterOutcome.threwError "Handler already registered"
    ∧ (register_message_handler (register_message_handler st0
          [JSValue.fn f]).2 [JSValue.fn g]).2
        = (register_message_handler st0 [JSValue.fn f]).2
    ∧ (send_message call (register_message_handler (register_message_handler
          st0 [JSValue.fn f]).2 [JSValue.fn g]).2 e).2.2
        = [SendAction.prepared, SendAction.readSlot,
           SendAction.calledHandler f e.prepare.value] := by
  rcases st0 with ⟨slot⟩
  simp only [JsState.handler] at h0
  subst h0
  exact ⟨rfl, rfl, rfl, rfl, rfl⟩

/-- C1 witness: concrete instantiation on an empty state with handlers 1
and 2. -/
theorem handler_registered_at_most_once_witness :
    (register_message_handler { handler := none } [JSValue.fn 1]).1
        = RegisterOutcome.registered
    ∧ (register_message_handler (register_message_handler { handler := none }
          [JSValue.fn 1]).2 [JSValue.fn 2]).1
        = RegisterOutcome.threwError "Handler already registered"
    ∧ (send_message (fun _ _ => none) (register_message_handler
          (register_message_handler { handler := none } [JSValue.fn 1]).2
          [JSValue.fn 2]).2 { prepareCount := 0, value := JSValue.undefined }).2.2
        = [SendAction.prepared, SendAction.readSlot,
           SendAction.calledHandler 1 JSValue.undefined] := by
  have h := handler_registered_at_most_once { handler := none } rfl 1 2
    (fun _ _ => none) { prepareCount := 0, value := JSValue.undefined }
  exact ⟨h.1, h.2.2.1, h.2.2.2.2⟩


/-- C2: the arity guard of the postMessage bridge is dead code: the source
guard compares the bitwise NOT of the i32 argument count with 1, which
fails for the realizable counts 0 and 2, so an arity-mismatched call is
never answered with the intended type error.  A zero-argument call falls
through and panics on the host side unwrapping `to_object(undefined)`, and
a two-argument call processes its first argument and logs a console record
despite the arity mismatch. -/
theorem postMessage_arity_guard_never_fires :
    notI32 0 ≠ 1
    ∧ notI32 2 ≠ 1
    ∧ message_from_worker (fun ms => some ms) [] = BridgeOutcome.hostPanic []
    ∧ message_from_worker (fun ms => some ms)
        [JSValue.obj [("kind", JSValue.str "console"),
                      ("level", JSValue.str "info"),
                      ("date", JSValue.num 0),
                      ("args", JSValue.arr [JSValue.str "a"])],
         JSValue.undefined]
        = BridgeOutcome.ok [LogRecord.console 0 "info" " a"] := by
  refine ⟨by decide, by decide, by decide, by decide⟩

/-- C3: a wrong-typed argument to the postMessage bridge ends in a
host-side panic, not a script-visible error: a `null` message panics
unwrapping `to_object`, and a console message whose `args` field is not an
array panics unwrapping the array downcast. -/
theorem postMessage_wrong_type_panics :
    message_from_worker (fun ms => some ms) [JSValue.nullv]
        = BridgeOutcome.hostPanic []
    ∧ message_from_worker (fun ms => some ms)
        [JSValue.obj [("kind", JSValue.str "console"),
                      ("args", JSValue.num 5)]]
        = BridgeOutcome.hostPanic [] := by
  refine ⟨by decide, by decide⟩

/-- C4: dispatching with no registered handler returns no result, logs the
no-handler diagnostic, and never invokes a handler; the `fetch` entry point
of the base layer likewise yields its no-handler outcome. -/
theorem dispatch_without_handler_is_no_result
    (call : Nat → JSValue → Option JSValue) (st : JsState) (e : EventModel)
    (h : st.handler = none)
    (fcall : Nat → Option JSValue) (ftext : JSValue → Option String)
    (ctx : JsContextModel) (hctx : ctx.state.handler = none) :
    (send_message call st e).1 = none
    ∧ (send_message call st e).2.2
        = [SendAction.prepared, SendAction.readSlot, SendAction.noHandlerLog]
    ∧ (∀ id arg, SendAction.calledHandler id arg ∉ (send_message call st e).2.2)
    ∧ fetch fcall ftext ctx = FetchOutcome.noHandler := by
  refine ⟨?_, ?_, ?_, ?_⟩
  · simp [send_message, h]
  · simp [send_message, h]
  · intro id arg
    simp [send_message, h]
  · simp [fetch, hctx]

/-- C4 witness: concrete dispatch into an empty state. -/
theorem dispatch_without_handler_is_no_result_witness :
    (send_message (fun _ _ => none) { handler := none }
        { prepareCount := 0, value := JSValue.undefined }).1 = none
    ∧ (send_message (fun _ _ => none) { handler := none }
        { prepareCount := 0, value := JSValue.undefined }).2.2
        = [SendAction.prepared, SendAction.readSlot, SendAction.noHandlerLog]
    ∧ SendAction.calledHandler 0 JSValue.undefined
        ∉ (send_message (fun _ _ => none) { handler := none }
            { prepareCount := 0, value := JSValue.undefined }).2.2
    ∧ fetch (fun _ => none) (fun _ => none)
        { globals := [], state := { handler := none } }
        = FetchOutcome.noHandler := by
  have h := dispatch_without_handler_is_no_result (fun _ _ => none)
    { handler := none } { prepareCount := 0, value := JSValue.undefined } rfl
    (fun _ => none) (fun _ => none)
    { globals := [], state := { handler := none } } rfl
  exact ⟨h.1, h.2.1, h.2.2.1 0 JSValue.undefined, h.2.2.2⟩

/-- C5: the evaluation API returns exactly one of the four outcomes, each
characterized by the pipeline stage that produced it: `CompileError` iff
source-string creation or compilation fails, `RuntimeError` iff the
compiled script's run yields no value, `ConversionError` iff the
completion value's conversion to text fails, and success iff every stage
succeeds, in which case the full converted text (never partial output) is
returned. -/
theorem eval_error_taxonomy {σ : Type} (eng : Engine σ) (st : σ)
    (source : String) :
    ((eval eng st source).1 = Except.error EvalError.CompileError ↔
        eng.newString source = none ∨
        ∃ code, eng.newString source = some code ∧ eng.compile code = none)
    ∧ ((eval eng st source).1 = Except.error EvalError.RuntimeError ↔
        ∃ code script, eng.newString source = some code ∧
          eng.compile code = some script ∧ (eng.run st script).1 = none)
    ∧ ((eval eng st source).1 = Except.error EvalError.ConversionError ↔
        ∃ code script v, eng.newString source = some code ∧
          eng.compile code = some script ∧ (eng.run st script).1 = some v ∧
          (eng.toText (eng.run st script).2 v).1 = none)
    ∧ (∀ text, (eval eng st source).1 = Except.ok text ↔
        ∃ code script v, eng.newString source = some code ∧
          eng.compile code = some script ∧ (eng.run st script).1 = some v ∧
          (eng.toText (eng.run st script).2 v).1 = some text) :=
  eval_cases eng st source

/-- An engine instance whose scripts always throw: `run` fails and bumps a
step counter. -/
def throwingEngine : Engine Nat where
  newString := fun s => some s
  compile := fun _ => some 0
  run := fun st _ => (none, st + 1)
  toText := fun st _ => (some "", st)

/-- C6: a script whose run throws makes `eval` return `RuntimeError`; the
engine state advances to the post-run state (no abort is modelled: `eval`
is total) and any subsequent `eval` on the resulting runtime again yields
exactly one of the contract's four outcomes. -/
theorem eval_runtime_error_recoverable {σ : Type} (eng : Engine σ) (st : σ)
    (source code : String) (script : Nat)
    (h1 : eng.newString source = some code)
    (h2 : eng.compile code = some script)
    (h3 : (eng.run st script).1 = none) :
    (eval eng st source).1 = Except.error EvalError.RuntimeError
    ∧ (eval eng st source).2 = (eng.run st script).2
    ∧ ∀ source2,
        (∃ text, (eval eng (eval eng st source).2 source2).1 = Except.ok text)
        ∨ (eval eng (eval eng st source).2 source2).1
            = Except.error EvalError.CompileError
        ∨ (eval eng (eval eng st source).2 source2).1
            = Except.error EvalError.RuntimeError
        ∨ (eval eng (eval eng st source).2 source2).1
            = Except.error EvalError.ConversionError := by
  rcases hr : eng.run st script with ⟨ov, st1⟩
  rw [hr] at h3
  simp only at h3
  subst h3
  refine ⟨by simp [eval, h1, h2, hr], by simp [eval, h1, h2, hr], ?_⟩
  intro source2
  rcases hres : (eval eng (eval eng st source).2 source2).1 with e | text
  · rcases e with _ | _ | _
    · exact Or.inr (Or.inl rfl)
    · exact Or.inr (Or.inr (Or.inl rfl))
    · exact Or.inr (Or.inr (Or.inr rfl))
  · exact Or.inl ⟨text, rfl⟩

/-- C6 witness: on the always-throwing engine, evaluation reports
`RuntimeError` and the follow-up evaluation again satisfies the
contract. -/
theorem eval_runtime_error_recoverable_witness :
    (eval throwingEngine 0 "throw 1").1 = Except.error EvalError.RuntimeError
    ∧ ((∃ text, (eval throwingEngine (eval throwingEngine 0 "throw 1").2
            "1+1").1 = Except.ok text)
        ∨ (eval throwingEngine (eval throwingEngine 0 "throw 1").2 "1+1").1
            = Except.error EvalError.CompileError
        ∨ (eval throwingEngine (eval throwingEngine 0 "throw 1").2 "1+1").1
            = Except.error EvalError.RuntimeError
        ∨ (eval throwingEngine (eval throwingEngine 0 "throw 1").2 "1+1").1
            = Except.error EvalError.ConversionError) := by
  have h := eval_runtime_error_recoverable throwingEngine 0 "throw 1"
    "throw 1" 0 rfl rfl rfl
  exact ⟨h.1, h.2.2 "1+1"⟩

/-- C7: a console-kind relay message makes the bridge emit exactly one
console record carrying the timestamp converted from the extracted
millisecond value (which defaults to 0 when the `date` field is missing or
not convertible), the extracted level, and the ordered space-separated
concatenation of the string forms of the `args` elements. -/
theorem console_message_single_log_line (fromTimestampMillis : Int → Option Int)
    (fields : List (String × JSValue)) (elems : List JSValue) (stamp : Int)
    (hkind : toRustStringLossy (utilsGet (JSValue.obj fields) "kind")
        = "console")
    (hargs : utilsGet (JSValue.obj fields) "args" = JSValue.arr elems)
    (hdate : fromTimestampMillis
        ((integerValue (utilsGet (JSValue.obj fields) "date")).getD 0)
        = some stamp) :
    message_from_worker fromTimestampMillis [JSValue.obj fields]
        = BridgeOutcome.ok [LogRecord.console stamp
            (toRustStringLossy (utilsGet (JSValue.obj fields) "level"))
            (spaceConcat elems)]
    ∧ spaceConcat [] = ""
    ∧ (∀ a rest, spaceConcat (a :: rest)
        = " " ++ toRustStringLossy a ++ spaceConcat rest) := by
  refine ⟨?_, rfl, fun a rest => spaceConcat_cons a rest⟩
  simp only [message_from_worker]
  norm_num [toObject, argGet, hkind, hargs, hdate, asArray, notI32]

/-- C7 witness: the message with kind "console", level "info", date 0 and
args ["a","b"] produces the single record rendering as
"console.info: a b". -/
theorem console_message_single_log_line_witness :
    message_from_worker (fun ms => some ms)
        [JSValue.obj [("kind", JSValue.str "console"),
                      ("level", JSValue.str "info"),
                      ("date", JSValue.num 0),
                      ("args", JSValue.arr [JSValue.str "a", JSValue.str "b"])]]
        = BridgeOutcome.ok [LogRecord.console 0 "info" " a b"]
    ∧ renderConsole (LogRecord.console 0 "info" " a b")
        = "console.info: a b" := by
  have h := console_message_single_log_line (fun ms => some ms)
    [("kind", JSValue.str "console"), ("level", JSValue.str "info"),
     ("date", JSValue.num 0),
     ("args", JSValue.arr [JSValue.str "a", JSValue.str "b"])]
    [JSValue.str "a", JSValue.str "b"] 0 rfl rfl rfl
  refine ⟨?_, by decide⟩
  have hs : spaceConcat [JSValue.str "a", JSValue.str "b"] = " a b" := by decide
  have hl : toRustStringLossy (utilsGet (JSValue.obj
      [("kind", JSValue.str "console"), ("level", JSValue.str "info"),
       ("date", JSValue.num 0),
       ("args", JSValue.arr [JSValue.str "a", JSValue.str "b"])]) "level")
      = "info" := by decide
  rw [h.1, hs, hl]

/-- C8: a relay message whose kind is not a known kind is answered with a
single "Unknown message kind" diagnostic and nothing else: no script error,
no console record. -/
theorem unknown_kind_is_nonfatal_diagnostic
    (fromTimestampMillis : Int → Option Int)
    (fields : List (String × JSValue))
    (hkind : toRustStringLossy (utilsGet (JSValue.obj fields) "kind")
        ≠ "console") :
    message_from_worker fromTimestampMillis [JSValue.obj fields]
        = BridgeOutcome.ok [LogRecord.diagnostic ("Unknown message kind: "
            ++ toRustStringLossy (utilsGet (JSValue.obj fields) "kind"))] := by
  simp only [message_from_worker]
  norm_num [toObject, argGet, hkind, notI32]

/-- C8 witness: a message of kind "mystery" yields just the diagnostic. -/
theorem unknown_kind_is_nonfatal_diagnostic_witness :
    message_from_worker (fun ms => some ms)
        [JSValue.obj [("kind", JSValue.str "mystery")]]
        = BridgeOutcome.ok
            [LogRecord.diagnostic "Unknown message kind: mystery"] := by
  have h := unknown_kind_is_nonfatal_diagnostic (fun ms => some ms)
    [("kind", JSValue.str "mystery")] (by decide)
  simpa using h

/-- C9: in a freshly created default context the default `console` global
has been deleted, so the typeof probe for it yields "undefined", whatever
default globals the engine installed. -/
theorem fresh_context_console_is_undefined
    (defaults : List (String × JSValue)) :
    typeofGlobal (JsContext.create defaults) "console" = "undefined" := by
  unfold typeofGlobal JsContext.create
  simp only [lookup_filter_key_none]

/-- C10: every `send_message` call runs the event's `prepare` hook exactly
once, as the first action and before the handler slot is read; in
particular the prepare side effect happens even when no handler is
registered and the call returns no result. -/
theorem send_message_prepares_exactly_once
    (call : Nat → JSValue → Option JSValue) (st : JsState) (e : EventModel) :
    (send_message call st e).2.1.prepareCount = e.prepareCount + 1
    ∧ (∃ rest, (send_message call st e).2.2
        = SendAction.prepared :: SendAction.readSlot :: rest)
    ∧ ((send_message call st e).2.2).countP isPrepared = 1
    ∧ (st.handler = none → (send_message call st e).1 = none) := by
  rcases hst : st.handler with _ | h
  · refine ⟨?_, ⟨[SendAction.noHandlerLog], ?_⟩, ?_, fun _ => ?_⟩ <;>
      simp [send_message, hst, EventModel.prepare, List.countP, List.countP.go,
        isPrepared]
  · refine ⟨?_, ⟨[SendAction.calledHandler h e.prepare.value], ?_⟩, ?_,
      fun hnone => ?_⟩
    · simp [send_message, hst, EventModel.prepare]
    · simp [send_message, hst]
    · simp [send_message, hst, List.countP, List.countP.go, isPrepared]
    · exact absurd hnone (by simp)

/-- C10 witness: dispatch into an empty state increments the prepare
counter and returns no result. -/
theorem send_message_prepares_exactly_once_witness :
    (send_message (fun _ _ => none) { handler := none }
        { prepareCount := 0, value := JSValue.undefined }).2.1.prepareCount = 1
    ∧ (send_message (fun _ _ => none) { handler := none }
        { prepareCount := 0, value := JSValue.undefined }).2.2
        = [SendAction.prepared, SendAction.readSlot, SendAction.noHandlerLog]
    ∧ (send_message (fun _ _ => none) { handler := none }
        { prepareCount := 0, value := JSValue.undefined }).1 = none := by
  have h := send_message_prepares_exactly_once (fun _ _ => none)
    { handler := none } { prepareCount := 0, value := JSValue.undefined }
  exact ⟨h.1, rfl, h.2.2.2 rfl⟩
